import Mathlib

/-!
Verification of the Nano-Banana Slack bot (Cloudflare Workers, TypeScript)
against its natural-language specification.

Shallow embedding conventions:
* JavaScript strings are modelled as `List Char` (`Str`); string literals
  enter through `String.data`.
* `string | undefined` / `string | null` values are `Option Str`; JavaScript
  truthiness of such a value (`undefined`, `null` and `""` are falsy) is the
  `truthy` predicate below.
* External collaborators (the KV dedup store, the Slack Web API, the Gemini
  HTTP endpoint, WebCrypto HMAC) are parameters: total functions for calls
  whose failure the claims do not mention, `Except`-valued functions where a
  claim is about failure behaviour.
* `async/await` code is straight-line here: each handler is sequential, so a
  run is a pure function of the event plus the collaborator responses.
  Side effects (dedup-store probes, reactions, Gemini batches, chat messages)
  are recorded in an `Action` trace in program order.
-/

namespace NanoBanana

/-- JavaScript string contents: a list of Unicode scalar values. -/
abbrev Str := List Char

/-- Truthiness of a `string | undefined` JS value: `undefined` and `""` are falsy. -/
def truthy : Option Str → Bool
  | some (_ :: _) => true
  | _ => false

/-- Normalise a `string | undefined` to `some` of a non-empty string, else `none`
(the shape JS condition chains such as `x && y` observe). -/
def truthyO : Option Str → Option Str
  | some (c :: cs) => some (c :: cs)
  | _ => none

/-- `x || ''` on a `string | undefined` value. -/
def jsStr (o : Option Str) : Str := o.getD []

/-- JavaScript `a || b` on `string | undefined` values. -/
def jsOr (a b : Option Str) : Option Str := if truthy a then a else b

/-- ASCII whitespace, the fragment of the JS `\s` class and `String.trim`
whitespace that the bot's inputs exercise. -/
def jsWs (c : Char) : Bool :=
  c == ' ' || c == '\t' || c == '\n' || c == '\r' || c.toNat == 11 || c.toNat == 12

/-- JavaScript `String.prototype.trim`: drop whitespace from both ends. -/
def jsTrim (l : Str) : Str :=
  ((l.dropWhile jsWs).reverse.dropWhile jsWs).reverse

/-- Digit run to number, radix 10. -/
def digitsToNat (l : Str) : Nat :=
  l.foldl (fun acc c => acc * 10 + (c.toNat - 48)) 0

/-- JavaScript `parseInt(s, 10)` followed by the `Number.isFinite` test of the
caller: skip leading whitespace, optional sign, then a maximal digit run;
`none` when no digit follows (NaN). -/
def jsParseInt (s : Str) : Option Int :=
  let s1 := s.dropWhile jsWs
  let (sign, s2) : Int × Str :=
    match s1 with
    | '-' :: r => (-1, r)
    | '+' :: r => (1, r)
    | _ => (1, s1)
  let digits := s2.takeWhile Char.isDigit
  if digits = [] then none
  else some (sign * (digitsToNat digits : Int))

/-- Boolean prefix test on char lists (JS `startsWith` / pattern matching). -/
def hasPrefixL : Str → Str → Bool
  | [], _ => true
  | _ :: _, [] => false
  | a :: as, b :: bs => a == b && hasPrefixL as bs

/-- JavaScript `hay.includes(needle)`: needle occurs contiguously in hay. -/
def includesL (needle hay : Str) : Bool :=
  hay.tails.any (hasPrefixL needle)

section SlackTs
/-!  Embedding of `src/slack.ts`. -/

/-- `timingSafeEqual(a, b)` from `src/slack.ts`: length check, then OR-fold of
bytewise XOR, compared with zero. -/
def timingSafeEqual (a b : List Nat) : Bool :=
  if a.length ≠ b.length then false
  else ((List.zipWith (· ^^^ ·) a b).foldl (· ||| ·) 0) == 0

/-- Lowercase hex digit, as produced by `b.toString(16)` on a nibble. -/
def hexDigit (n : Nat) : Char :=
  if n < 10 then Char.ofNat (48 + n) else Char.ofNat (87 + n)

/-- The `hex` helper of `src/slack.ts`: each byte to two lowercase hex chars
(`toString(16).padStart(2, '0')`). -/
def hexBytes (l : List (Fin 256)) : Str :=
  (l.map (fun b => [hexDigit (b.val / 16), hexDigit (b.val % 16)])).flatten

/-- UTF-8 encoding of one scalar value, as performed by `TextEncoder.encode`
(written arithmetically; the bit-ors of the standard presentation coincide
with these additions on the given ranges). -/
def utf8Char (c : Char) : List Nat :=
  if c.toNat < 128 then [c.toNat]
  else if c.toNat < 2048 then [192 + c.toNat / 64, 128 + c.toNat % 64]
  else if c.toNat < 65536 then
    [224 + c.toNat / 4096, 128 + c.toNat / 64 % 64, 128 + c.toNat % 64]
  else
    [240 + c.toNat / 262144, 128 + c.toNat / 4096 % 64, 128 + c.toNat / 64 % 64,
      128 + c.toNat % 64]

/-- `new TextEncoder().encode(s)`. -/
def utf8Str (l : Str) : List Nat := (l.map utf8Char).flatten

/-- `hmac256(key, message)` from `src/slack.ts`: the WebCrypto HMAC-SHA256
primitive is the parameter `mac` (it may reject, e.g. `importKey` throws a
`DataError` on an empty raw HMAC key); the function hex-encodes its output. -/
def hmac256 (mac : Str → Str → Except Unit (List (Fin 256))) (key message : Str) :
    Except Unit Str :=
  (mac key message).map hexBytes

/-- The signing base string `v0:${ts}:${body}`. -/
def sigBase (ts body : Str) : Str :=
  "v0:".data ++ ts ++ ":".data ++ body

/-- `verifySlackSignature` from `src/slack.ts`.  Headers are
`Option Str` (absent → `none`); `now` is `Math.floor(Date.now() / 1000)`.
An `Except.error` is a JS exception escaping the function. -/
def verifySlackSignature (mac : Str → Str → Except Unit (List (Fin 256)))
    (secret : Str) (tsHdr sigHdr : Option Str) (body : Str) (now : Int) :
    Except Unit Bool :=
  if jsStr tsHdr = [] ∨ jsStr sigHdr = [] then .ok false
  else
    match jsParseInt (jsStr tsHdr) with
    | none => .ok false
    | some t =>
      if (now - t).natAbs > 300 then .ok false
      else do
        let digest ← hmac256 mac secret (sigBase (jsStr tsHdr) body)
        .ok (timingSafeEqual (utf8Str (jsStr sigHdr))
          (utf8Str ("v0=".data ++ digest)))

end SlackTs

section TimingSafeLemmas

theorem nat_or_eq_zero {a b : Nat} (h : a ||| b = 0) : a = 0 ∧ b = 0 := by
  constructor <;>
  · apply Nat.eq_of_testBit_eq
    intro i
    have h2 := congrArg (Nat.testBit · i) h
    simp only [Nat.testBit_or, Nat.zero_testBit] at h2 ⊢
    first
    | exact (Bool.or_eq_false_iff.mp h2).1
    | exact (Bool.or_eq_false_iff.mp h2).2

theorem foldl_or_eq_zero (l : List Nat) (a : Nat) :
    l.foldl (· ||| ·) a = 0 ↔ a = 0 ∧ ∀ x ∈ l, x = 0 := by
  induction l generalizing a with
  | nil => simp
  | cons y ys ih =>
    simp only [List.foldl_cons, List.mem_cons, ih]
    constructor
    · rintro ⟨h1, h2⟩
      obtain ⟨ha, hy⟩ := nat_or_eq_zero h1
      exact ⟨ha, fun x hx => hx.elim (fun e => e ▸ hy) (h2 x)⟩
    · rintro ⟨ha, h2⟩
      refine ⟨?_, fun x hx => h2 x (Or.inr hx)⟩
      rw [ha, h2 y (Or.inl rfl)]
      rfl

theorem timingSafeEqual_iff (a b : List Nat) : timingSafeEqual a b = true ↔ a = b := by
  unfold timingSafeEqual
  split
  · rename_i hlen
    simp only [Bool.false_eq_true, false_iff]
    intro h; exact hlen (h ▸ rfl)
  · rename_i hlen
    push_neg at hlen
    rw [beq_iff_eq, foldl_or_eq_zero]
    simp only [true_and]
    constructor
    · intro h
      apply List.ext_getElem hlen
      intro i hi hbi
      have hx : a[i] ^^^ b[i] = 0 := by
        apply h
        rw [List.mem_iff_getElem]
        refine ⟨i, ?_, ?_⟩
        · rw [List.length_zipWith]
          omega
        · simp [List.getElem_zipWith]
      exact Nat.xor_eq_zero.mp hx
    · rintro rfl
      intro x hx
      rw [List.mem_iff_getElem] at hx
      obtain ⟨i, hi, hxe⟩ := hx
      rw [List.getElem_zipWith] at hxe
      simp [← hxe]

theorem timingSafeEqual_length_ne {a b : List Nat} (h : a.length ≠ b.length) :
    timingSafeEqual a b = false := by
  unfold timingSafeEqual
  simp [h]

end TimingSafeLemmas

section Utf8Lemmas

theorem utf8Char_ne_nil (c : Char) : utf8Char c ≠ [] := by
  unfold utf8Char
  split
  · simp
  · split
    · simp
    · split <;> simp

theorem utf8Char_ascii {c : Char} (h : c.toNat < 128) : utf8Char c = [c.toNat] := by
  unfold utf8Char
  simp [h]

theorem utf8Char_head_ge {c : Char} (h : ¬ c.toNat < 128) :
    ∃ x l, utf8Char c = x :: l ∧ 128 ≤ x := by
  unfold utf8Char
  split
  · omega
  · split
    · exact ⟨_, _, rfl, by omega⟩
    · split
      · exact ⟨_, _, rfl, by omega⟩
      · exact ⟨_, _, rfl, by omega⟩

theorem char_eq_of_toNat_eq {c d : Char} (h : c.toNat = d.toNat) : c = d := by
  apply Char.eq_of_val_eq
  apply UInt32.eq_of_val_eq
  apply Fin.eq_of_val_eq
  exact h

theorem utf8Str_inj_ascii :
    ∀ (b a : Str), (∀ c ∈ b, c.toNat < 128) → utf8Str a = utf8Str b → a = b := by
  intro b
  induction b with
  | nil =>
    intro a _ h
    cases a with
    | nil => rfl
    | cons c as =>
      exfalso
      simp only [utf8Str, List.map_nil, List.flatten_nil, List.map_cons,
        List.flatten_cons] at h
      cases hch : utf8Char c with
      | nil => exact utf8Char_ne_nil c hch
      | cons x xs => rw [hch] at h; simp at h
  | cons c bs ih =>
    intro a hb h
    have hc : c.toNat < 128 := hb c (List.mem_cons_self c bs)
    cases a with
    | nil =>
      exfalso
      simp only [utf8Str, List.map_cons, List.flatten_cons, List.map_nil,
        List.flatten_nil, utf8Char_ascii hc] at h
      simp at h
    | cons c' as =>
      simp only [utf8Str, List.map_cons, List.flatten_cons,
        utf8Char_ascii hc] at h
      by_cases hc' : c'.toNat < 128
      · rw [utf8Char_ascii hc'] at h
        simp only [List.cons_append, List.nil_append, List.cons.injEq] at h
        obtain ⟨h1, h2⟩ := h
        have has : as = bs := by
          apply ih as (fun x hx => hb x (List.mem_cons_of_mem _ hx))
          simpa [utf8Str] using h2
        rw [char_eq_of_toNat_eq h1, has]
      · exfalso
        obtain ⟨x, l, hxl, hge⟩ := utf8Char_head_ge hc'
        rw [hxl] at h
        simp only [List.cons_append, List.cons.injEq] at h
        omega

/-- UTF-8 streams agree on an all-ASCII right side exactly when the strings do. -/
theorem utf8Str_eq_ascii_iff (a b : Str) (hb : ∀ c ∈ b, c.toNat < 128) :
    utf8Str a = utf8Str b ↔ a = b :=
  ⟨utf8Str_inj_ascii b a hb, fun h => h ▸ rfl⟩

theorem hexDigit_ascii {n : Nat} (h : n < 16) : (hexDigit n).toNat < 128 := by
  unfold hexDigit
  interval_cases n <;> decide

theorem hexBytes_ascii (l : List (Fin 256)) : ∀ c ∈ hexBytes l, c.toNat < 128 := by
  intro c hc
  unfold hexBytes at hc
  rw [List.mem_flatten] at hc
  obtain ⟨sub, hsub, hcsub⟩ := hc
  rw [List.mem_map] at hsub
  obtain ⟨b, _, rfl⟩ := hsub
  simp only [List.mem_cons, List.not_mem_nil, or_false] at hcsub
  rcases hcsub with h | h
  · rw [h]; exact hexDigit_ascii (Nat.div_lt_of_lt_mul (by omega))
  · rw [h]; exact hexDigit_ascii (Nat.mod_lt _ (by omega))

end Utf8Lemmas

section SignatureClaims

theorem tse_utf8_eq_decide (sig exp : Str) (hexp : ∀ c ∈ exp, c.toNat < 128) :
    timingSafeEqual (utf8Str sig) (utf8Str exp) = decide (sig = exp) := by
  by_cases h : sig = exp
  · subst h
    rw [(timingSafeEqual_iff _ _).mpr rfl]
    simp
  · have hne : utf8Str sig ≠ utf8Str exp :=
      fun he => h ((utf8Str_eq_ascii_iff _ _ hexp).mp he)
    have ht : timingSafeEqual (utf8Str sig) (utf8Str exp) = false :=
      Bool.eq_false_iff.mpr fun htr => hne ((timingSafeEqual_iff _ _).mp htr)
    rw [ht]
    simp [h]

theorem expected_ascii (d : List (Fin 256)) :
    ∀ c ∈ "v0=".data ++ hexBytes d, c.toNat < 128 := by
  intro c hc
  rw [List.mem_append] at hc
  rcases hc with hc | hc
  · have hv : "v0=".data = ['v', '0', '='] := rfl
    rw [hv] at hc
    simp only [List.mem_cons, List.not_mem_nil, or_false] at hc
    rcases hc with rfl | rfl | rfl <;> decide
  · exact hexBytes_ascii d c hc

/-- C1: `verifySlackSignature` returns false when a header is absent, the
timestamp does not parse to an integer, or the timestamp is more than 300
seconds from `now`; otherwise it returns true exactly when the supplied
signature header equals `v0=` followed by the lowercase hex encoding of
HMAC-SHA256 over `v0:<ts>:<body>`, via a comparison that is false on any
length mismatch. -/
theorem C1_verifySlackSignature
    (mac : Str → Str → Except Unit (List (Fin 256))) (secret : Str)
    (tsHdr sigHdr : Option Str) (body : Str) (now : Int) :
    (tsHdr = none ∨ sigHdr = none →
      verifySlackSignature mac secret tsHdr sigHdr body now = .ok false) ∧
    (jsParseInt (jsStr tsHdr) = none →
      verifySlackSignature mac secret tsHdr sigHdr body now = .ok false) ∧
    (∀ t, jsParseInt (jsStr tsHdr) = some t → (now - t).natAbs > 300 →
      verifySlackSignature mac secret tsHdr sigHdr body now = .ok false) ∧
    (∀ t d, jsParseInt (jsStr tsHdr) = some t → (now - t).natAbs ≤ 300 →
      mac secret (sigBase (jsStr tsHdr) body) = .ok d →
      verifySlackSignature mac secret tsHdr sigHdr body now =
        .ok (decide (jsStr sigHdr = "v0=".data ++ hexBytes d))) ∧
    (∀ a b : List Nat, a.length ≠ b.length → timingSafeEqual a b = false) := by
  refine ⟨?_, ?_, ?_, ?_, fun a b h => timingSafeEqual_length_ne h⟩
  · rintro (rfl | rfl) <;> simp [verifySlackSignature, jsStr]
  · intro hp
    unfold verifySlackSignature
    split
    · rfl
    · simp [hp]
  · intro t hp hw
    unfold verifySlackSignature
    split
    · rfl
    · simp [hp, hw]
  · intro t d hp hw hmacEq
    unfold verifySlackSignature
    split
    · rename_i he
      rcases he with he | he
      · rw [he] at hp
        simp [jsParseInt] at hp
      · rw [he]
        have hv : "v0=".data ++ hexBytes d = 'v' :: ("0=".data ++ hexBytes d) := rfl
        rw [hv]
        simp
    · simp only [hp]
      rw [if_neg (by omega)]
      have hm : hmac256 mac secret (sigBase (jsStr tsHdr) body) = .ok (hexBytes d) := by
        unfold hmac256
        rw [hmacEq]
        rfl
      rw [hm]
      show Except.ok (timingSafeEqual (utf8Str (jsStr sigHdr))
        (utf8Str ("v0=".data ++ hexBytes d))) = _
      rw [tse_utf8_eq_decide _ _ (expected_ascii d)]

end SignatureClaims

theorem C1_verifySlackSignature_witness :
    verifySlackSignature (fun _ _ => Except.ok [(171 : Fin 256)]) "s".data
      (some "100".data) (some "v0=ab".data) "b".data 105 = .ok true := by
  have h := (C1_verifySlackSignature (fun _ _ => Except.ok [(171 : Fin 256)]) "s".data
      (some "100".data) (some "v0=ab".data) "b".data 105).2.2.2.1 100 [(171 : Fin 256)]
      (by decide) (by decide) rfl
  rw [h]
  have hd : (jsStr (some "v0=ab".data) = "v0=".data ++ hexBytes [(171 : Fin 256)]) := by
    decide
  rw [decide_eq_true hd]

/-- C4 (counterexample): with valid, fresh headers but an HMAC primitive that
rejects (as WebCrypto `importKey` does on an empty raw key), the exception
propagates out of `verifySlackSignature` instead of yielding `false`. -/
theorem C4_counterexample :
    verifySlackSignature (fun _ _ => Except.error ()) "secret".data
      (some "100".data) (some "v0=ab".data) "body".data 100 = .error () := by
  rfl

/-- C4 (amended): `verifySlackSignature` has no try/catch, so the only
exception that can escape is a failure of the WebCrypto HMAC primitive
itself; every other failure path (absent header, unparsable timestamp,
stale timestamp, signature mismatch) returns `false` rather than throwing. -/
theorem C4_amended_verify_no_other_escape
    (mac : Str → Str → Except Unit (List (Fin 256))) (secret : Str)
    (tsHdr sigHdr : Option Str) (body : Str) (now : Int) (e : Unit)
    (h : verifySlackSignature mac secret tsHdr sigHdr body now = .error e) :
    mac secret (sigBase (jsStr tsHdr) body) = .error e := by
  cases e
  unfold verifySlackSignature at h
  split at h
  · cases h
  · cases hp : jsParseInt (jsStr tsHdr) with
    | none =>
      simp only [hp] at h
      cases h
    | some t =>
      simp only [hp] at h
      split at h
      · cases h
      · cases hm : mac secret (sigBase (jsStr tsHdr) body) with
        | ok d =>
          have hok : hmac256 mac secret (sigBase (jsStr tsHdr) body) = .ok (hexBytes d) := by
            unfold hmac256
            rw [hm]
            rfl
          rw [hok] at h
          cases h
        | error e' =>
          cases e'
          rfl

theorem C4_amended_witness :
    (fun (_ _ : Str) => (Except.error () : Except Unit (List (Fin 256)))) "secret".data
      (sigBase (jsStr (some "100".data)) "body".data) = .error () :=
  C4_amended_verify_no_other_escape (fun _ _ => .error ()) "secret".data
    (some "100".data) (some "v0=ab".data) "body".data 100 () (by rfl)

section SanitizeTs
/-!  Embedding of `sanitizeSlackText` / `enforceImageOnly` from `src/slack.ts`.

Each of the global regex replaces of `sanitizeSlackText` is deterministic
(the quantified classes exclude the closing delimiters, so greedy matching
cannot backtrack), and is realised by a left-to-right scan: at each position
the matcher either recognises the leftmost match, emitting the replacement
and the remainder, or the current character is copied — exactly the
behaviour of `String.prototype.replace` with a `g` regex.  The scans recurse
on a fuel argument initialised to the input length; a successful match
always consumes at least one character, so the fuel never runs out. -/

/-- Generic global-replace scan; `matcher` returns the replacement text and
the rest of the input after the leftmost match anchored at this position. -/
def scanReplace (matcher : Str → Option (Str × Str)) : Nat → Str → Str
  | 0, l => l
  | _ + 1, [] => []
  | fuel + 1, c :: rest =>
    match matcher (c :: rest) with
    | some (out, rem) => out ++ scanReplace matcher fuel rem
    | none => c :: scanReplace matcher fuel rest

/-- Matcher for `/<[^>|]+\|([^>]+)>/g` replaced by `$1` (link with label). -/
def linkMatcher : Str → Option (Str × Str)
  | '<' :: rest =>
    let x := rest.takeWhile (fun c => !(c == '>') && !(c == '|'))
    let r1 := rest.dropWhile (fun c => !(c == '>') && !(c == '|'))
    if x = [] then none
    else
      match r1 with
      | '|' :: r2 =>
        let y := r2.takeWhile (fun c => !(c == '>'))
        let r3 := r2.dropWhile (fun c => !(c == '>'))
        if y = [] then none
        else
          match r3 with
          | '>' :: r4 => some (y, r4)
          | _ => none
      | _ => none
  | _ => none

/-- Matcher for `/<@[^>]+>/g` removed (user mentions). -/
def mentionMatcher : Str → Option (Str × Str)
  | '<' :: '@' :: rest =>
    let run := rest.takeWhile (fun c => !(c == '>'))
    let r := rest.dropWhile (fun c => !(c == '>'))
    if run = [] then none
    else
      match r with
      | '>' :: r2 => some ([], r2)
      | _ => none
  | _ => none

/-- Matcher for `/<#([^>|]+)(\|[^>]+)?>/g` removed (channel mentions). -/
def channelMatcher : Str → Option (Str × Str)
  | '<' :: '#' :: rest =>
    let run := rest.takeWhile (fun c => !(c == '>') && !(c == '|'))
    let r := rest.dropWhile (fun c => !(c == '>') && !(c == '|'))
    if run = [] then none
    else
      match r with
      | '>' :: r2 => some ([], r2)
      | '|' :: r2 =>
        let run2 := r2.takeWhile (fun c => !(c == '>'))
        let r3 := r2.dropWhile (fun c => !(c == '>'))
        if run2 = [] then none
        else
          match r3 with
          | '>' :: r4 => some ([], r4)
          | _ => none
      | _ => none
  | _ => none

/-- Matcher for `/<[^>]+>/g` removed (remaining bracketed tokens). -/
def angleMatcher : Str → Option (Str × Str)
  | '<' :: rest =>
    let run := rest.takeWhile (fun c => !(c == '>'))
    let r := rest.dropWhile (fun c => !(c == '>'))
    if run = [] then none
    else
      match r with
      | '>' :: r2 => some ([], r2)
      | _ => none
  | _ => none

/-- Matcher removing a literal pattern (the residual `<@botUserId>` pass;
bot user ids contain no regex metacharacters). -/
def literalMatcher (pat : Str) (l : Str) : Option (Str × Str) :=
  if pat ≠ [] ∧ hasPrefixL pat l then some ([], l.drop pat.length) else none

/-- Matcher for `/\s+/g` replaced by a single space (whitespace collapse). -/
def wsMatcher : Str → Option (Str × Str)
  | c :: rest => if jsWs c then some ([' '], rest.dropWhile jsWs) else none
  | [] => none

/-- `sanitizeSlackText(text, botUserId)` from `src/slack.ts`: the five regex
replaces in source order, then whitespace collapse and trim. -/
def sanitizeSlackText (text : Str) (botUserId : Option Str) : Str :=
  let s1 := scanReplace linkMatcher text.length text
  let s2 := scanReplace mentionMatcher s1.length s1
  let s3 := scanReplace channelMatcher s2.length s2
  let s4 := scanReplace angleMatcher s3.length s3
  let s5 :=
    match truthyO botUserId with
    | some bid => scanReplace (literalMatcher ('<' :: '@' :: bid ++ ['>'])) s4.length s4
    | none => s4
  let s6 := scanReplace wsMatcher s5.length s5
  jsTrim s6

/-- Case-insensitive prefix match against a lowercase ASCII pattern,
returning the rest of the input. -/
def stripCaseless : Str → Str → Option Str
  | [], l => some l
  | _ :: _, [] => none
  | p :: ps, c :: cs =>
    if (if 'A' ≤ c ∧ c ≤ 'Z' then Char.ofNat (c.toNat + 32) else c) == p
    then stripCaseless ps cs
    else none

/-- One anchored attempt of the `/image\s*only/i` test. -/
def imageOnlyAt (l : Str) : Bool :=
  match stripCaseless "image".data l with
  | none => false
  | some r =>
    match stripCaseless "only".data (r.dropWhile jsWs) with
    | none => false
    | some _ => true

/-- The `/image\s*only/i.test(t)` call of `enforceImageOnly`. -/
def testImageOnly (l : Str) : Bool := l.tails.any imageOnlyAt

/-- The fixed image-only instruction appended by `enforceImageOnly`. -/
def jaPhrase : Str := "出力は画像のみ。".data

/-- `enforceImageOnly(text)` from `src/slack.ts`. -/
def enforceImageOnly (text : Str) : Str :=
  if includesL jaPhrase (jsTrim text) then jsTrim text
  else if testImageOnly (jsTrim text) then jsTrim text
  else if (jsTrim text).length > 0 then jsTrim text ++ ' ' :: jaPhrase
  else jaPhrase

end SanitizeTs

section PromptLemmas

theorem jsTrim_ne_nil {l : Str} (h : ∃ c ∈ l, jsWs c = false) : jsTrim l ≠ [] := by
  obtain ⟨c, hc, hwsf⟩ := h
  intro he
  unfold jsTrim at he
  rw [List.reverse_eq_nil_iff, List.dropWhile_eq_nil_iff] at he
  have hall : ∀ x ∈ l.dropWhile jsWs, jsWs x = true :=
    fun x hx => he x (List.mem_reverse.mpr hx)
  have hws : ∀ x ∈ l, jsWs x = true := by
    intro x hx
    have hx' : x ∈ l.takeWhile jsWs ++ l.dropWhile jsWs := by
      rw [List.takeWhile_append_dropWhile]
      exact hx
    rcases List.mem_append.mp hx' with h1 | h2
    · exact List.mem_takeWhile_imp h1
    · exact hall x h2
  rw [hws c hc] at hwsf
  cases hwsf

theorem hasPrefixL_mem {n t : Str} (h : hasPrefixL n t = true) : ∀ c ∈ n, c ∈ t := by
  induction n generalizing t with
  | nil =>
    intro c hc
    cases hc
  | cons a as ih =>
    cases t with
    | nil => cases h
    | cons b bs =>
      simp only [hasPrefixL, Bool.and_eq_true, beq_iff_eq] at h
      obtain ⟨hab, hrest⟩ := h
      intro c hc
      rcases List.mem_cons.mp hc with rfl | hc2
      · exact hab ▸ List.mem_cons_self _ _
      · exact List.mem_cons_of_mem _ (ih hrest c hc2)

theorem includesL_mem {n t : Str} (h : includesL n t = true) : ∀ c ∈ n, c ∈ t := by
  unfold includesL at h
  rw [List.any_eq_true] at h
  obtain ⟨suf, hsuf, hpre⟩ := h
  intro c hc
  have hcs : c ∈ suf := hasPrefixL_mem hpre c hc
  obtain ⟨p, rfl⟩ := (List.mem_tails _ _).mp hsuf
  exact List.mem_append_right p hcs

theorem lower_ws_ne_i {c : Char} (hws : jsWs c = true) :
    ((if 'A' ≤ c ∧ c ≤ 'Z' then Char.ofNat (c.toNat + 32) else c) == 'i') = false := by
  simp only [jsWs, Bool.or_eq_true, beq_iff_eq] at hws
  rcases hws with ((((rfl | rfl) | rfl) | rfl) | h) | h
  · decide
  · decide
  · decide
  · decide
  · rw [char_eq_of_toNat_eq (c := c) (d := Char.ofNat 11) (by rw [h]; decide)]
    decide
  · rw [char_eq_of_toNat_eq (c := c) (d := Char.ofNat 12) (by rw [h]; decide)]
    decide

theorem testImageOnly_nonws {t : Str} (h : testImageOnly t = true) :
    ∃ c ∈ t, jsWs c = false := by
  unfold testImageOnly at h
  rw [List.any_eq_true] at h
  obtain ⟨suf, hsuf, hat⟩ := h
  cases suf with
  | nil =>
    have hfalse : imageOnlyAt [] = false := by decide
    rw [hfalse] at hat
    cases hat
  | cons c cs =>
    refine ⟨c, ?_, ?_⟩
    · obtain ⟨p, rfl⟩ := (List.mem_tails _ _).mp hsuf
      exact List.mem_append_right p (List.mem_cons_self _ _)
    · by_contra hws
      rw [Bool.not_eq_false] at hws
      have hcond := lower_ws_ne_i hws
      have himg : ("image".data : Str) = 'i' :: "mage".data := rfl
      unfold imageOnlyAt at hat
      rw [himg] at hat
      unfold stripCaseless at hat
      simp only [hcond, Bool.false_eq_true, if_false] at hat

/-- After `enforceImageOnly`, a prompt trims to a non-empty string: every
branch of the function yields text containing a non-whitespace character. -/
theorem enforceImageOnly_trim_ne_nil (text : Str) :
    jsTrim (enforceImageOnly text) ≠ [] := by
  unfold enforceImageOnly
  split
  · rename_i hInc
    exact jsTrim_ne_nil ⟨'出', includesL_mem hInc '出' (by decide), by decide⟩
  · split
    · rename_i hTest
      exact jsTrim_ne_nil (testImageOnly_nonws hTest)
    · split
      · refine jsTrim_ne_nil ⟨'出', ?_, by decide⟩
        exact List.mem_append_right _ (List.mem_cons_of_mem _ (by decide))
      · exact jsTrim_ne_nil ⟨'出', by decide, by decide⟩

end PromptLemmas

/-- C9: sanitizing `"<@U123> please <https://x|fix> this"` with bot id `U123`
yields exactly `"please fix this"` (link label kept, mention removed,
whitespace collapsed and trimmed), and `enforceImageOnly` then appends the
fixed image-only instruction because the text does not already declare
image-only output. -/
theorem C9_sanitize_roundtrip :
    sanitizeSlackText "<@U123> please <https://x|fix> this".data (some "U123".data)
        = "please fix this".data ∧
      enforceImageOnly "please fix this".data
        = "please fix this".data ++ ' ' :: jaPhrase := by
  constructor <;> decide

section GeminiTs
/-!  Embedding of `transformImage` / `transformImagesCombined` from
`src/gemini.ts`.  The HTTP endpoint is the parameter `send`; a request is
its generation-config response modalities plus the ordered content parts
(the endpoint, API key and JSON framing are fixed and carry no claim
content).  The result pairs the returned value (`Except` for a thrown
error) with the list of requests issued, in order. -/

/-- One content part of a Gemini request body. -/
inductive ReqPart where
  | text (s : Str)
  | inline (mime : Str) (data : Str)
  deriving DecidableEq

/-- A Gemini `generateContent` request: `responseModalities` plus parts. -/
structure GReq where
  modalities : List Str
  parts : List ReqPart
  deriving DecidableEq

/-- One part of a Gemini response candidate (`inline_data.data`,
`inlineData.data` and `text` are the fields the code reads). -/
structure GPart where
  inline_data : Option Str
  inlineData : Option Str
  text : Option Str
  deriving DecidableEq

/-- A Gemini response: `candidates[0].content.parts` (defaulted to `[]`)
and the HTTP status. -/
structure GResp where
  parts : List GPart
  status : Nat
  deriving DecidableEq

/-- `btoa` over the byte string built by `toBase64` in `src/gemini.ts`. -/
def b64Char (n : Nat) : Char :=
  if n < 26 then Char.ofNat (65 + n)
  else if n < 52 then Char.ofNat (97 + (n - 26))
  else if n < 62 then Char.ofNat (48 + (n - 52))
  else if n = 62 then '+'
  else '/'

/-- `toBase64(buf)` from `src/gemini.ts` (standard base64 with padding). -/
def toBase64 : List Nat → Str
  | a :: b :: c :: rest =>
    b64Char (a % 256 / 4) ::
      b64Char (a % 256 % 4 * 16 + b % 256 / 16) ::
      b64Char (b % 256 % 16 * 4 + c % 256 / 64) ::
      b64Char (c % 256 % 64) :: toBase64 rest
  | [a, b] =>
    [b64Char (a % 256 / 4), b64Char (a % 256 % 4 * 16 + b % 256 / 16),
      b64Char (b % 256 % 16 * 4), '=']
  | [a] => [b64Char (a % 256 / 4), b64Char (a % 256 % 4 * 16), '=', '=']
  | [] => []

/-- Value of one base64 character under `atob`. -/
def b64Val (c : Char) : Nat :=
  if 'A' ≤ c ∧ c ≤ 'Z' then c.toNat - 65
  else if 'a' ≤ c ∧ c ≤ 'z' then c.toNat - 97 + 26
  else if '0' ≤ c ∧ c ≤ '9' then c.toNat - 48 + 52
  else if c = '+' then 62
  else 63

/-- `fromBase64(b64)` from `src/gemini.ts` (`atob` then char codes). -/
def fromBase64 (s : Str) : List Nat :=
  go (s.filter (fun c => !(c == '=')))
where
  go : Str → List Nat
    | a :: b :: c :: d :: rest =>
      (b64Val a * 4 + b64Val b / 16) ::
        (b64Val b % 16 * 16 + b64Val c / 4) ::
        (b64Val c % 4 * 64 + b64Val d) :: go rest
    | [a, b, c] =>
      [b64Val a * 4 + b64Val b / 16, b64Val b % 16 * 16 + b64Val c / 4]
    | [a, b] => [b64Val a * 4 + b64Val b / 16]
    | _ => []

/-- The image-part extraction the code performs on a response:
`parts.find(p => p?.inline_data?.data) || parts.find(p => p?.inlineData?.data)`
followed by `imagePart?.inline_data?.data || imagePart?.inlineData?.data`,
with JS truthiness (an empty data string does not count). -/
def extractImage (r : GResp) : Option Str :=
  match
    match r.parts.find? (fun p => truthy p.inline_data) with
    | some p => some p
    | none => r.parts.find? (fun p => truthy p.inlineData)
  with
  | none => none
  | some p => truthyO (jsOr p.inline_data p.inlineData)

/-- The request body built by `transformImage`: the prompt text part then the
single inline image, under the given response modalities. -/
def singleReq (mods : List Str) (bytes : List Nat) (mime prompt : Str) : GReq :=
  ⟨mods, [.text prompt, .inline mime (toBase64 bytes)]⟩

/-- Error message thrown by `transformImage` when the fallback also returns
no image: `Gemini did not return an image (fallback). http=${res2.status}`. -/
def singleFailMsg (status : Nat) : Str :=
  "Gemini did not return an image (fallback). http=".data ++ (toString status).data

/-- `transformImage` from `src/gemini.ts`: one request with modalities
`['IMAGE']`; if its response carries no inline image, one fallback request
with identical parts and modalities `['TEXT','IMAGE']`; if that also carries
none, throw.  Returns the outcome and the issued requests in order. -/
def transformImage (send : GReq → GResp) (bytes : List Nat) (mime prompt : Str) :
    Except Str (List Nat) × List GReq :=
  match extractImage (send (singleReq ["IMAGE".data] bytes mime prompt)) with
  | some b => (.ok (fromBase64 b), [singleReq ["IMAGE".data] bytes mime prompt])
  | none =>
    match extractImage (send (singleReq ["TEXT".data, "IMAGE".data] bytes mime prompt)) with
    | some b =>
      (.ok (fromBase64 b),
        [singleReq ["IMAGE".data] bytes mime prompt,
          singleReq ["TEXT".data, "IMAGE".data] bytes mime prompt])
    | none =>
      (.error (singleFailMsg
          (send (singleReq ["TEXT".data, "IMAGE".data] bytes mime prompt)).status),
        [singleReq ["IMAGE".data] bytes mime prompt,
          singleReq ["TEXT".data, "IMAGE".data] bytes mime prompt])

/-- The request body built by `transformImagesCombined`: the prompt text part
then every inline image in order, under the given response modalities. -/
def combinedReq (mods : List Str) (images : List (List Nat × Str)) (prompt : Str) :
    GReq :=
  ⟨mods, .text prompt :: images.map (fun i => .inline i.2 (toBase64 i.1))⟩

/-- Error message thrown by `transformImagesCombined` when the fallback also
returns no image. -/
def combinedFailMsg (status : Nat) : Str :=
  "Gemini combined request returned no image (fallback). http=".data ++
    (toString status).data

/-- `transformImagesCombined` from `src/gemini.ts`: same two-attempt shape as
`transformImage`, with all images in one request. -/
def transformImagesCombined (send : GReq → GResp) (images : List (List Nat × Str))
    (prompt : Str) : Except Str (List Nat) × List GReq :=
  match extractImage (send (combinedReq ["IMAGE".data] images prompt)) with
  | some b => (.ok (fromBase64 b), [combinedReq ["IMAGE".data] images prompt])
  | none =>
    match extractImage (send (combinedReq ["TEXT".data, "IMAGE".data] images prompt)) with
    | some b =>
      (.ok (fromBase64 b),
        [combinedReq ["IMAGE".data] images prompt,
          combinedReq ["TEXT".data, "IMAGE".data] images prompt])
    | none =>
      (.error (combinedFailMsg
          (send (combinedReq ["TEXT".data, "IMAGE".data] images prompt)).status),
        [combinedReq ["IMAGE".data] images prompt,
          combinedReq ["TEXT".data, "IMAGE".data] images prompt])

end GeminiTs

section GeminiClaims

theorem singleFailMsg_ne_nil (st : Nat) : singleFailMsg st ≠ [] := by
  have h : singleFailMsg st =
      'G' :: ("emini did not return an image (fallback). http=".data ++
        (toString st).data) := rfl
  rw [h]
  simp

theorem combinedFailMsg_ne_nil (st : Nat) : combinedFailMsg st ≠ [] := by
  have h : combinedFailMsg st =
      'G' :: ("emini combined request returned no image (fallback). http=".data ++
        (toString st).data) := rfl
  rw [h]
  simp

/-- C5: for both generative calls, a first attempt that yields an image issues
no second request; a first attempt without an image issues exactly one retry
with identical content parts and the relaxed TEXT,IMAGE output mode; if the
retry also yields no image the call fails with a non-empty diagnostic
message; and in every case at most two requests are issued. -/
theorem C5_generative_retry
    (send : GReq → GResp) (bytes : List Nat) (mime prompt : Str)
    (images : List (List Nat × Str)) :
    (∀ b, extractImage (send (singleReq ["IMAGE".data] bytes mime prompt)) = some b →
      transformImage send bytes mime prompt =
        (.ok (fromBase64 b), [singleReq ["IMAGE".data] bytes mime prompt])) ∧
    (extractImage (send (singleReq ["IMAGE".data] bytes mime prompt)) = none →
      (transformImage send bytes mime prompt).2 =
          [singleReq ["IMAGE".data] bytes mime prompt,
            singleReq ["TEXT".data, "IMAGE".data] bytes mime prompt] ∧
        (singleReq ["TEXT".data, "IMAGE".data] bytes mime prompt).parts =
          (singleReq ["IMAGE".data] bytes mime prompt).parts) ∧
    (extractImage (send (singleReq ["IMAGE".data] bytes mime prompt)) = none →
      extractImage (send (singleReq ["TEXT".data, "IMAGE".data] bytes mime prompt)) = none →
      (transformImage send bytes mime prompt).1 =
          .error (singleFailMsg
            (send (singleReq ["TEXT".data, "IMAGE".data] bytes mime prompt)).status) ∧
        ∀ st, singleFailMsg st ≠ []) ∧
    ((transformImage send bytes mime prompt).2.length ≤ 2) ∧
    (∀ b, extractImage (send (combinedReq ["IMAGE".data] images prompt)) = some b →
      transformImagesCombined send images prompt =
        (.ok (fromBase64 b), [combinedReq ["IMAGE".data] images prompt])) ∧
    (extractImage (send (combinedReq ["IMAGE".data] images prompt)) = none →
      (transformImagesCombined send images prompt).2 =
          [combinedReq ["IMAGE".data] images prompt,
            combinedReq ["TEXT".data, "IMAGE".data] images prompt] ∧
        (combinedReq ["TEXT".data, "IMAGE".data] images prompt).parts =
          (combinedReq ["IMAGE".data] images prompt).parts) ∧
    (extractImage (send (combinedReq ["IMAGE".data] images prompt)) = none →
      extractImage (send (combinedReq ["TEXT".data, "IMAGE".data] images prompt)) = none →
      (transformImagesCombined send images prompt).1 =
          .error (combinedFailMsg
            (send (combinedReq ["TEXT".data, "IMAGE".data] images prompt)).status) ∧
        ∀ st, combinedFailMsg st ≠ []) ∧
    ((transformImagesCombined send images prompt).2.length ≤ 2) := by
  refine ⟨?_, ?_, ?_, ?_, ?_, ?_, ?_, ?_⟩
  · intro b h1
    simp [transformImage, h1]
  · intro h1
    refine ⟨?_, rfl⟩
    simp [transformImage, h1]
    cases h2 : extractImage (send (singleReq ["TEXT".data, "IMAGE".data] bytes mime prompt)) <;>
      simp
  · intro h1 h2
    refine ⟨?_, singleFailMsg_ne_nil⟩
    simp [transformImage, h1, h2]
  · unfold transformImage
    split
    · simp
    · split <;> simp
  · intro b h1
    simp [transformImagesCombined, h1]
  · intro h1
    refine ⟨?_, rfl⟩
    simp [transformImagesCombined, h1]
    cases h2 : extractImage (send (combinedReq ["TEXT".data, "IMAGE".data] images prompt)) <;>
      simp
  · intro h1 h2
    refine ⟨?_, combinedFailMsg_ne_nil⟩
    simp [transformImagesCombined, h1, h2]
  · unfold transformImagesCombined
    split
    · simp
    · split <;> simp

theorem C5_generative_retry_witness :
    (transformImage (fun _ => GResp.mk [] 404) [1] "image/png".data "p".data).1 =
        .error (singleFailMsg 404) ∧
      (transformImagesCombined (fun _ => GResp.mk [] 500) [] "p".data).2.length ≤ 2 := by
  have h := C5_generative_retry (fun _ => GResp.mk [] 404) [1] "image/png".data "p".data []
  have h2 := C5_generative_retry (fun _ => GResp.mk [] 500) [1] "image/png".data "p".data []
  exact ⟨(h.2.2.1 rfl rfl).1, h2.2.2.2.2.2.2.2⟩

end GeminiClaims

section TranslateTs
/-!  Embedding of the worker entry (`src/index.ts`, bundled into
`src/translate.ts` here): event structures, the KV dedup helper, the
classifier and the `processSlackEvent` pipeline.  A pipeline run is recorded
as the list of externally visible actions in program order. -/

/-- A Slack file descriptor (the fields the code reads). -/
structure SlackFile where
  mimetype : Option Str
  url_private_download : Option Str
  url_private : Option Str
  name : Option Str
  deriving DecidableEq

/-- A message from `conversations.replies` (the fields the code reads). -/
structure SlackMsg where
  ts : Option Str
  user : Option Str
  bot_id : Option Str
  text : Option Str
  files : Option (List SlackFile)
  deriving DecidableEq

/-- An Events API event (the fields the code reads). -/
structure SlackEvent where
  type : Option Str
  channel_type : Option Str
  subtype : Option Str
  channel : Option Str
  ts : Option Str
  thread_ts : Option Str
  user : Option Str
  bot_id : Option Str
  text : Option Str
  files : Option (List SlackFile)
  deriving DecidableEq

/-- `dedupeSeen(env, key)`: KV get, early true on a truthy hit, else KV put
with a 300s TTL and false; any store error is caught and yields false. -/
def dedupeSeen (get : Str → Except Unit (Option Str))
    (put : Str → Str → Nat → Except Unit Unit) (key : Str) : Bool :=
  match get key with
  | .error _ => false
  | .ok hit =>
    if truthy hit then true
    else
      match put key "1".data 300 with
      | .error _ => false
      | .ok _ => false

/-- The mention token `<@${botUserId}>`. -/
def mentionTok (bid : Str) : Str := '<' :: '@' :: (bid ++ ['>'])

/-- `fetchThreadRoot(channel, ts, token)`: first message of
`conversations.replies` (limit 1), or null. -/
def fetchThreadRoot (repliesApi : Str → Str → Option (List SlackMsg))
    (channel ts : Str) : Option SlackMsg :=
  match repliesApi channel ts with
  | some (m :: _) => some m
  | _ => none

/-- `shouldProcess(event, botUserId, token)`: the classifier, in source
order with short-circuiting. -/
def shouldProcess (repliesApi : Str → Str → Option (List SlackMsg))
    (ev : SlackEvent) (botUserId : Option Str) : Bool :=
  if ev.channel_type = some "im".data then true
  else if ev.type = some "app_mention".data then true
  else
    match truthyO botUserId with
    | none => false
    | some bid =>
      if truthy ev.user ∧ ev.user = some bid then false
      else if truthy ev.bot_id then false
      else if includesL (mentionTok bid) (jsStr ev.text) then true
      else
        match truthyO ev.thread_ts, truthyO ev.channel with
        | some tts, some ch =>
          includesL (mentionTok bid)
            (jsStr ((fetchThreadRoot repliesApi ch tts).bind SlackMsg.text))
        | _, _ => false

/-- An image candidate `{url, name, mime}`. -/
structure Img where
  url : Str
  name : Str
  mime : Str
  deriving DecidableEq

/-- The `Set`-based url filter (`seen.has` / `seen.add` / `filter`). -/
def dedupByUrlGo (seen : List Str) : List Img → List Img
  | [] => []
  | x :: xs =>
    if x.url ∈ seen then dedupByUrlGo seen xs
    else x :: dedupByUrlGo (x.url :: seen) xs

/-- De-duplicate image candidates by url, keeping first occurrences in order. -/
def dedupByUrl (l : List Img) : List Img := dedupByUrlGo [] l

/-- `botUserId ? m?.user === botUserId : !!m?.bot_id` in `listPreviousBotImage`. -/
def isBotMsg (botUserId : Option Str) (m : SlackMsg) : Bool :=
  match truthyO botUserId with
  | some bid => m.user == some bid
  | none => truthy m.bot_id

/-- One file of a scanned reply: image mime plus a usable url
(`url_private_download || url_private`), name defaulted. -/
def fileImage (defNamePng : Str) (f : SlackFile) : Option Img :=
  match truthyO f.mimetype, truthyO (jsOr f.url_private_download f.url_private) with
  | some mime, some url =>
    if hasPrefixL "image/".data mime then
      some ⟨url, jsStr (jsOr f.name (some defNamePng)), mime⟩
    else none
  | _, _ => none

/-- `listPreviousBotImage(channel, ts, token, botUserId)`: scan the replies
most-recent-first, skip the root itself, keep bot-authored messages, scan
each message's files most-recent-first, first image wins. -/
def listPreviousBotImage (msgs : List SlackMsg) (ts : Str) (botUserId : Option Str)
    (defNamePng : Str) : Option Img :=
  msgs.reverse.findSome? fun m =>
    if m.ts = some ts then none
    else if isBotMsg botUserId m then
      match m.files with
      | some (f :: fs) => ((f :: fs).reverse).findSome? (fileImage defNamePng)
      | _ => none
    else none

/-- One attachment of the current event (lines 174-180): image mime,
usable url, name defaulted to the `image-${Date.now()}` pattern. -/
def collectFile (defName : Str) (f : SlackFile) : Option Img :=
  match truthyO f.mimetype with
  | none => none
  | some mime =>
    if hasPrefixL "image/".data mime then
      match truthyO (jsOr f.url_private_download f.url_private) with
      | none => none
      | some url => some ⟨url, jsStr (jsOr f.name (some defName)), mime⟩
    else none

/-- The `current` image list collected from `event.files`. -/
def collectCurrent (defName : Str) (files : Option (List SlackFile)) : List Img :=
  match files with
  | some fs => fs.filterMap (collectFile defName)
  | none => []

/-- `Array.isArray(event.files) && event.files.length > 0`. -/
def filesNonempty : Option (List SlackFile) → Bool
  | some (_ :: _) => true
  | _ => false

/-- Externally visible steps of one `processSlackEvent` run, in program
order.  `checkDedup` is one `dedupeSeen` call (a combined probe/write of the
given key); `classify` is the `shouldProcess` call with its result;
`runBatch` is a `processBatchImages` call with its input list; `postText`
is a `chat.postMessage` attempt. -/
inductive Action where
  | checkDedup (key : Str)
  | classify (result : Bool)
  | addReaction (ts : Str)
  | lookupPrev (found : Bool)
  | runBatch (inputs : List Img)
  | postText (msg : Str)
  deriving DecidableEq

/-- Collaborator responses for one run: the dedup-store outcome per key, the
two `conversations.replies` uses, the batch-processing outcome, and the
`Date.now()`-derived default file names. -/
structure Ctx where
  dedup : Str → Bool
  repliesRoot : Str → Str → Option (List SlackMsg)
  repliesAll : Str → Str → List SlackMsg
  batch : List Img → Except Str Unit
  defName : Str
  defNamePng : Str

/-- The event-id dedup key `eid:<event-id>`. -/
def eidKey (eid : Str) : Str := "eid:".data ++ eid

/-- The per-post dedup key `cts:<channel>:<timestamp>`. -/
def ctsKey (ch ts : Str) : Str := "cts:".data ++ ch ++ ":".data ++ ts

/-- The failure message posted into the thread. -/
def failText (reason : Str) : Str := "🍌 Failed to generate images: ".data ++ reason

/-- The guidance message posted when no image is available. -/
def guidanceText : Str :=
  "🍌 No image found. Reply with text to a bot image in this thread, or attach an image.".data

/-- A `processBatchImages` call plus the failure message on error. -/
def runBatchPart (cx : Ctx) (inputs : List Img) : List Action :=
  Action.runBatch inputs ::
    (match cx.batch inputs with
     | .ok _ => []
     | .error e => [Action.postText (failText e)])

/-- Lines 208-222: guidance when no targets remain, else the batch call. -/
def noPrevRest (cx : Ctx) (targets : List Img) : List Action :=
  if targets = [] then [Action.postText guidanceText]
  else runBatchPart cx targets

/-- Lines 186-222: when the prompt is non-empty, look up the previous bot
image in the thread; if found, run the batch on the previous image prepended
to the targets, de-duplicated by url; otherwise fall through. -/
def imagePhase (cx : Ctx) (channel root_ts : Str) (botUserId : Option Str)
    (prompt : Str) (targets : List Img) : List Action :=
  if jsTrim prompt ≠ [] then
    match listPreviousBotImage (cx.repliesAll channel root_ts) root_ts botUserId
        cx.defNamePng with
    | some p => Action.lookupPrev true :: runBatchPart cx (dedupByUrl (p :: targets))
    | none => Action.lookupPrev false :: noPrevRest cx targets
  else noPrevRest cx targets

/-- Lines 167-170: reaction on the current message when its ts is truthy,
and on the thread root when it differs from the current ts. -/
def reactPart (ev : SlackEvent) (root_ts : Str) : List Action :=
  (match truthyO ev.ts with
   | some t => [Action.addReaction t]
   | none => []) ++
  (if ev.ts = some root_ts then [] else [Action.addReaction root_ts])

/-- The `if (channel && root_ts)` block: reactions, collection, image phase. -/
def mainBlock (cx : Ctx) (ev : SlackEvent) (botUserId : Option Str)
    (channel root_ts : Str) : List Action :=
  reactPart ev root_ts ++
    imagePhase cx channel root_ts botUserId
      (enforceImageOnly (sanitizeSlackText (jsStr ev.text) botUserId))
      (dedupByUrl (collectCurrent cx.defName ev.files))

/-- Guard `if (channel && root_ts)` with `root_ts = thread_ts || ts`. -/
def channelGate (cx : Ctx) (ev : SlackEvent) (botUserId : Option Str) : List Action :=
  match truthyO ev.channel, truthyO (jsOr ev.thread_ts ev.ts) with
  | some ch, some rts => mainBlock cx ev botUserId ch rts
  | _, _ => []

/-- Lines 163-164: the `cts:` dedup probe, made only when channel and the
current ts are truthy, stopping the run on a hit. -/
def ctsGate (cx : Ctx) (ev : SlackEvent) (botUserId : Option Str) : List Action :=
  match truthyO ev.channel, truthyO ev.ts with
  | some ch, some cts =>
    Action.checkDedup (ctsKey ch cts) ::
      (if cx.dedup (ctsKey ch cts) then [] else channelGate cx ev botUserId)
  | _, _ => channelGate cx ev botUserId

/-- Lines 143-155: the type filter and the two suppression guards
(app_mention with files; message subtype other than file_share). -/
def processBody (cx : Ctx) (ev : SlackEvent) (botUserId : Option Str) : List Action :=
  if ev.type = some "message".data ∨ ev.type = some "app_mention".data then
    if ev.type = some "app_mention".data ∧ filesNonempty ev.files then []
    else if ev.type = some "message".data ∧ truthy ev.subtype ∧
        ev.subtype ≠ some "file_share".data then []
    else ctsGate cx ev botUserId
  else []

/-- Lines 138-141: the `shouldProcess` call and its gate. -/
def processAfterDedup (cx : Ctx) (ev : SlackEvent) (botUserId : Option Str) :
    List Action :=
  Action.classify (shouldProcess cx.repliesRoot ev botUserId) ::
    (if shouldProcess cx.repliesRoot ev botUserId then processBody cx ev botUserId
     else [])

/-- `processSlackEvent(event, env, payload)` as an action trace: token gate,
then the `eid:` dedup probe when an event id is present, then the rest. -/
def processSlackEvent (cx : Ctx) (token : Option Str) (ev : SlackEvent)
    (eventId : Option Str) (botUserId : Option Str) : List Action :=
  if truthy token then
    match truthyO eventId with
    | some eid =>
      Action.checkDedup (eidKey eid) ::
        (if cx.dedup (eidKey eid) then [] else processAfterDedup cx ev botUserId)
    | none => processAfterDedup cx ev botUserId
  else []

end TranslateTs

section ClassifierClaims

/-- C2: the classifier truth table of `shouldProcess`, rows in evaluation
order with short-circuiting: DM → true; app-mention → true; no bot identity
→ false; self-authored or bot-origin → false; text mentions the bot → true;
thread whose fetched root mentions the bot → true (even if the event text
does not); otherwise false. -/
theorem C2_shouldProcess (repliesApi : Str → Str → Option (List SlackMsg))
    (ev : SlackEvent) (botUserId : Option Str) :
    (ev.channel_type = some "im".data →
      shouldProcess repliesApi ev botUserId = true) ∧
    (ev.type = some "app_mention".data →
      shouldProcess repliesApi ev botUserId = true) ∧
    (ev.channel_type ≠ some "im".data → ev.type ≠ some "app_mention".data →
      truthyO botUserId = none → shouldProcess repliesApi ev botUserId = false) ∧
    (∀ bid, ev.channel_type ≠ some "im".data → ev.type ≠ some "app_mention".data →
      truthyO botUserId = some bid →
      ((truthy ev.user ∧ ev.user = some bid) ∨ truthy ev.bot_id) →
      shouldProcess repliesApi ev botUserId = false) ∧
    (∀ bid, ev.channel_type ≠ some "im".data → ev.type ≠ some "app_mention".data →
      truthyO botUserId = some bid →
      ¬(truthy ev.user ∧ ev.user = some bid) → ¬ truthy ev.bot_id →
      includesL (mentionTok bid) (jsStr ev.text) = true →
      shouldProcess repliesApi ev botUserId = true) ∧
    (∀ bid tts ch, ev.channel_type ≠ some "im".data →
      ev.type ≠ some "app_mention".data →
      truthyO botUserId = some bid →
      ¬(truthy ev.user ∧ ev.user = some bid) → ¬ truthy ev.bot_id →
      truthyO ev.thread_ts = some tts → truthyO ev.channel = some ch →
      includesL (mentionTok bid)
        (jsStr ((fetchThreadRoot repliesApi ch tts).bind SlackMsg.text)) = true →
      shouldProcess repliesApi ev botUserId = true) ∧
    (∀ bid, ev.channel_type ≠ some "im".data → ev.type ≠ some "app_mention".data →
      truthyO botUserId = some bid →
      ¬(truthy ev.user ∧ ev.user = some bid) → ¬ truthy ev.bot_id →
      includesL (mentionTok bid) (jsStr ev.text) = false →
      (∀ tts ch, truthyO ev.thread_ts = some tts → truthyO ev.channel = some ch →
        includesL (mentionTok bid)
          (jsStr ((fetchThreadRoot repliesApi ch tts).bind SlackMsg.text)) = false) →
      shouldProcess repliesApi ev botUserId = false) := by
  refine ⟨?_, ?_, ?_, ?_, ?_, ?_, ?_⟩
  · intro h1
    unfold shouldProcess
    rw [if_pos h1]
  · intro h2
    unfold shouldProcess
    by_cases h1 : ev.channel_type = some "im".data
    · rw [if_pos h1]
    · rw [if_neg h1, if_pos h2]
  · intro h1 h2 h3
    unfold shouldProcess
    rw [if_neg h1, if_neg h2]
    simp only [h3]
  · intro bid h1 h2 h3 h4
    unfold shouldProcess
    rw [if_neg h1, if_neg h2]
    simp only [h3]
    rcases h4 with h4 | h4
    · rw [if_pos h4]
    · by_cases hu : truthy ev.user = true ∧ ev.user = some bid
      · rw [if_pos hu]
      · rw [if_neg hu, if_pos h4]
  · intro bid h1 h2 h3 h4 h5 h6
    unfold shouldProcess
    rw [if_neg h1, if_neg h2]
    simp only [h3]
    rw [if_neg h4, if_neg h5, if_pos h6]
  · intro bid tts ch h1 h2 h3 h4 h5 htts hch h8
    unfold shouldProcess
    rw [if_neg h1, if_neg h2]
    simp only [h3]
    rw [if_neg h4, if_neg h5]
    by_cases htext : includesL (mentionTok bid) (jsStr ev.text) = true
    · rw [if_pos htext]
    · rw [if_neg htext]
      simp only [htts, hch]
      exact h8
  · intro bid h1 h2 h3 h4 h5 h6 h7
    unfold shouldProcess
    rw [if_neg h1, if_neg h2]
    simp only [h3]
    rw [if_neg h4, if_neg h5, if_neg (fun hc => by rw [h6] at hc; cases hc)]
    split
    · rename_i tts ch htts hch
      exact h7 tts ch htts hch
    · rfl

/-- Root message used by the C2 witness. -/
def msgW : SlackMsg :=
  ⟨some "123".data, some "U9".data, none, some "<@U1> go".data, none⟩

/-- Event used by the C2 witness: a plain channel thread reply whose own
text does not mention the bot. -/
def evW : SlackEvent :=
  ⟨some "message".data, some "channel".data, none, some "C".data,
    some "124".data, some "123".data, some "U2".data, none,
    some "no mention here".data, none⟩

theorem C2_shouldProcess_witness :
    shouldProcess (fun _ _ => some [msgW]) evW (some "U1".data) = true :=
  (C2_shouldProcess (fun _ _ => some [msgW]) evW
      (some "U1".data)).2.2.2.2.2.1 "U1".data "123".data "C".data
    (by decide) (by decide) rfl (by decide) (by decide) rfl rfl (by decide)

end ClassifierClaims

section DedupeClaims

/-- C6: `dedupeSeen` fails open — a store error on the get, or on the put
after a miss, is caught and yields `false` (not a duplicate), so processing
continues instead of the error propagating or the event being dropped. -/
theorem C6_dedupe_fail_open (get : Str → Except Unit (Option Str))
    (put : Str → Str → Nat → Except Unit Unit) (key : Str) :
    (get key = .error () → dedupeSeen get put key = false) ∧
    (∀ hit, get key = .ok hit → truthy hit = false →
      put key "1".data 300 = .error () → dedupeSeen get put key = false) := by
  constructor
  · intro h
    unfold dedupeSeen
    rw [h]
  · intro hit hg ht hp
    unfold dedupeSeen
    rw [hg]
    simp only [ht, Bool.false_eq_true, if_false, hp]

theorem C6_dedupe_fail_open_witness :
    dedupeSeen (fun _ => .error ()) (fun _ _ _ => .ok ()) "eid:E1".data = false ∧
      dedupeSeen (fun _ => .ok none) (fun _ _ _ => .error ()) "eid:E1".data = false :=
  ⟨(C6_dedupe_fail_open (fun _ => .error ()) (fun _ _ _ => .ok ()) "eid:E1".data).1 rfl,
    (C6_dedupe_fail_open (fun _ => .ok none) (fun _ _ _ => .error ())
      "eid:E1".data).2 none rfl rfl rfl⟩

end DedupeClaims

section MergeClaims

/-- C8: merging de-duplicates by url preserving first-seen order with the
prior bot image first: current attachments `[a, a, b]` (same url twice)
de-duplicate to `[a, b]`, and prepending the found prior image `a` and
de-duplicating again yields exactly `[a, b]`. -/
theorem C8_merge_dedup (a b : Img) (h : a.url ≠ b.url) :
    dedupByUrl [a, a, b] = [a, b] ∧
      dedupByUrl (a :: dedupByUrl [a, a, b]) = [a, b] := by
  have h1 : dedupByUrl [a, a, b] = [a, b] := by
    simp [dedupByUrl, dedupByUrlGo, h, Ne.symm h]
  refine ⟨h1, ?_⟩
  rw [h1]
  simp [dedupByUrl, dedupByUrlGo, h, Ne.symm h]

theorem C8_merge_dedup_witness :
    dedupByUrl [Img.mk "a".data "n1".data "image/png".data,
        Img.mk "a".data "n1".data "image/png".data,
        Img.mk "b".data "n2".data "image/png".data] =
      [Img.mk "a".data "n1".data "image/png".data,
        Img.mk "b".data "n2".data "image/png".data] :=
  (C8_merge_dedup (Img.mk "a".data "n1".data "image/png".data)
    (Img.mk "b".data "n2".data "image/png".data) (by decide)).1

end MergeClaims

section TraceClaims

/-- Is this action the classifier call? -/
def isClassifyA : Action → Bool
  | .classify _ => true
  | _ => false

/-- Is this action a dedup probe of a `cts:`-shaped key? -/
def isCtsCheckA : Action → Bool
  | .checkDedup k => hasPrefixL "cts:".data k
  | _ => false

/-- Is this action a dedup probe of an `eid:`-shaped key? -/
def isEidCheckA : Action → Bool
  | .checkDedup k => hasPrefixL "eid:".data k
  | _ => false

theorem hasPrefixL_append_self (p l : Str) : hasPrefixL p (p ++ l) = true := by
  induction p with
  | nil => rfl
  | cons c cs ih => simp [hasPrefixL, ih]

theorem cts_prefix_eidKey (eid : Str) : hasPrefixL "cts:".data (eidKey eid) = false := rfl

theorem ctsKey_ne_eidKey (ch cts eid : Str) : ctsKey ch cts ≠ eidKey eid := by
  intro h
  have h4 : ('c' :: ("ts:".data ++ ch ++ ":".data ++ cts) : Str) =
      'e' :: ("id:".data ++ eid) := h
  injection h4 with hc _
  exact absurd hc (by decide)

theorem checkDedup_not_mem_runBatchPart (cx : Ctx) (inputs : List Img) (k : Str) :
    Action.checkDedup k ∉ runBatchPart cx inputs := by
  unfold runBatchPart
  cases hb : cx.batch inputs <;> simp [hb]

theorem checkDedup_not_mem_noPrevRest (cx : Ctx) (targets : List Img) (k : Str) :
    Action.checkDedup k ∉ noPrevRest cx targets := by
  unfold noPrevRest
  split
  · simp
  · exact checkDedup_not_mem_runBatchPart cx targets k

theorem checkDedup_not_mem_imagePhase (cx : Ctx) (channel root_ts : Str)
    (botUserId : Option Str) (prompt : Str) (targets : List Img) (k : Str) :
    Action.checkDedup k ∉ imagePhase cx channel root_ts botUserId prompt targets := by
  unfold imagePhase
  split
  · split
    · intro h
      rcases List.mem_cons.mp h with h | h
      · exact Action.noConfusion h
      · exact checkDedup_not_mem_runBatchPart cx _ k h
    · intro h
      rcases List.mem_cons.mp h with h | h
      · exact Action.noConfusion h
      · exact checkDedup_not_mem_noPrevRest cx targets k h
  · exact checkDedup_not_mem_noPrevRest cx targets k

theorem checkDedup_not_mem_mainBlock (cx : Ctx) (ev : SlackEvent)
    (botUserId : Option Str) (channel root_ts : Str) (k : Str) :
    Action.checkDedup k ∉ mainBlock cx ev botUserId channel root_ts := by
  unfold mainBlock
  intro h
  rcases List.mem_append.mp h with h | h
  · unfold reactPart at h
    rcases List.mem_append.mp h with h | h
    · cases hts : truthyO ev.ts <;> simp [hts] at h
    · split at h <;> simp_all
  · exact checkDedup_not_mem_imagePhase cx channel root_ts botUserId _ _ k h

theorem checkDedup_not_mem_channelGate (cx : Ctx) (ev : SlackEvent)
    (botUserId : Option Str) (k : Str) :
    Action.checkDedup k ∉ channelGate cx ev botUserId := by
  unfold channelGate
  split
  · exact checkDedup_not_mem_mainBlock cx ev botUserId _ _ k
  · simp

theorem cts_mem_processBody {cx : Ctx} {ev : SlackEvent} {botUserId : Option Str}
    {ch cts : Str}
    (h : Action.checkDedup (ctsKey ch cts) ∈ processBody cx ev botUserId) :
    ¬(ev.type = some "app_mention".data ∧ filesNonempty ev.files = true) ∧
      ¬(ev.type = some "message".data ∧ truthy ev.subtype = true ∧
        ev.subtype ≠ some "file_share".data) := by
  unfold processBody at h
  split at h
  · split at h
    · exact absurd h (List.not_mem_nil _)
    · split at h
      · exact absurd h (List.not_mem_nil _)
      · rename_i hg1 hg2
        exact ⟨hg1, hg2⟩
  · exact absurd h (List.not_mem_nil _)

theorem cts_mem_processAfterDedup {cx : Ctx} {ev : SlackEvent}
    {botUserId : Option Str} {ch cts : Str}
    (h : Action.checkDedup (ctsKey ch cts) ∈ processAfterDedup cx ev botUserId) :
    shouldProcess cx.repliesRoot ev botUserId = true ∧
      ¬(ev.type = some "app_mention".data ∧ filesNonempty ev.files = true) ∧
      ¬(ev.type = some "message".data ∧ truthy ev.subtype = true ∧
        ev.subtype ≠ some "file_share".data) := by
  unfold processAfterDedup at h
  rcases List.mem_cons.mp h with h | h
  · exact Action.noConfusion h
  · split at h
    · rename_i hsp
      exact ⟨hsp, cts_mem_processBody h⟩
    · exact absurd h (List.not_mem_nil _)

/-- C7: in every run, the `eid:` key (when an event id is present) is probed
first, before the classifier; no `cts:` probe ever precedes the classifier
call; and a `cts:` probe happens only when classification returned true and
both suppression guards passed. -/
theorem C7_dedup_phases (cx : Ctx) (token : Option Str) (ev : SlackEvent)
    (eventId : Option Str) (botUserId : Option Str) :
    (((processSlackEvent cx token ev eventId botUserId).takeWhile
        (fun a => !isClassifyA a)).all (fun a => !isCtsCheckA a) = true) ∧
    (∀ eid, truthy token = true → truthyO eventId = some eid →
      (processSlackEvent cx token ev eventId botUserId).head? =
        some (Action.checkDedup (eidKey eid))) ∧
    (∀ ch cts,
      Action.checkDedup (ctsKey ch cts) ∈
          processSlackEvent cx token ev eventId botUserId →
      shouldProcess cx.repliesRoot ev botUserId = true ∧
        ¬(ev.type = some "app_mention".data ∧ filesNonempty ev.files = true) ∧
        ¬(ev.type = some "message".data ∧ truthy ev.subtype = true ∧
          ev.subtype ≠ some "file_share".data)) := by
  refine ⟨?_, ?_, ?_⟩
  · unfold processSlackEvent
    split
    · split
      · rename_i eid heid
        cases hd : cx.dedup (eidKey eid) <;>
          · simp [processAfterDedup, List.takeWhile_cons, isClassifyA, isCtsCheckA]
            exact cts_prefix_eidKey eid
      · simp [processAfterDedup, List.takeWhile_cons, isClassifyA]
    · simp
  · intro eid htok heid
    unfold processSlackEvent
    rw [if_pos htok]
    simp only [heid]
    rfl
  · intro ch cts h
    unfold processSlackEvent at h
    split at h
    · split at h
      · rename_i eid heid
        rcases List.mem_cons.mp h with h | h
        · exact absurd (by injection h) (ctsKey_ne_eidKey ch cts eid)
        · split at h
          · exact absurd h (List.not_mem_nil _)
          · exact cts_mem_processAfterDedup h
      · exact cts_mem_processAfterDedup h
    · exact absurd h (List.not_mem_nil _)

/-- Collaborator responses used by concrete runs below: dedup always misses,
no thread root, no replies, batch succeeds. -/
def cxNil : Ctx := ⟨fun _ => false, fun _ _ => none, fun _ _ => [], fun _ => .ok (), [], []⟩

theorem C7_dedup_phases_witness :
    (processSlackEvent cxNil (some "t".data) evW (some "E1".data) none).head? =
      some (Action.checkDedup (eidKey "E1".data)) :=
  (C7_dedup_phases cxNil (some "t".data) evW (some "E1".data) none).2.1
    "E1".data rfl rfl

end TraceClaims

section SubtypeClaim

/-- C10: a `message` event carrying a truthy subtype other than `file_share`
stops right after classification: the run consists only of the `eid:` dedup
probe and the classifier call — no reaction, no `cts:` key, no prior-image
lookup, no batch, no message — even when the classifier returned true. -/
theorem C10_subtype_guard (cx : Ctx) (token : Option Str) (ev : SlackEvent)
    (eventId : Option Str) (botUserId : Option Str)
    (h1 : ev.type = some "message".data) (h2 : truthy ev.subtype = true)
    (h3 : ev.subtype ≠ some "file_share".data) :
    (processSlackEvent cx token ev eventId botUserId).all
      (fun a => isEidCheckA a || isClassifyA a) = true := by
  have hbody : processBody cx ev botUserId = [] := by
    unfold processBody
    rw [if_pos (Or.inl h1),
      if_neg (fun hc => absurd (h1 ▸ hc.1) (by decide)),
      if_pos ⟨h1, h2, h3⟩]
  unfold processSlackEvent
  split
  · split
    · rename_i eid heid
      have heidp : isEidCheckA (Action.checkDedup (eidKey eid)) = true := by
        unfold isEidCheckA eidKey
        exact hasPrefixL_append_self "eid:".data eid
      cases hd : cx.dedup (eidKey eid) <;>
        simp [processAfterDedup, hbody, isClassifyA, heidp]
    · simp [processAfterDedup, hbody, isClassifyA]
  · simp

/-- Event used by the C10 witness: an edited message in a DM (so the
classifier says process), with subtype `message_changed`. -/
def evEdit : SlackEvent :=
  ⟨some "message".data, some "im".data, some "message_changed".data,
    some "C".data, some "1".data, none, none, none, some "x".data, none⟩

theorem C10_subtype_guard_witness :
    (processSlackEvent cxNil (some "t".data) evEdit (some "E2".data) none).all
      (fun a => isEidCheckA a || isClassifyA a) = true :=
  C10_subtype_guard cxNil (some "t".data) evEdit (some "E2".data) none
    rfl rfl (by decide)

end SubtypeClaim

section PriorLookupClaim

/-- Event used by the C3 counterexample: a DM message with empty text and no
attachments. -/
def evEmptyText : SlackEvent :=
  ⟨some "message".data, some "im".data, none, some "C".data, some "1".data,
    none, none, none, some "".data, none⟩

/-- C3 (counterexample): with an event whose text sanitizes to the empty
string, the run still performs the prior-image lookup — the gate tests the
prompt after `enforceImageOnly`, which is never empty — refuting
"attempted only when the sanitized incoming text is non-empty". -/
theorem C3_counterexample :
    sanitizeSlackText "".data none = [] ∧
      Action.lookupPrev false ∈
        processSlackEvent cxNil (some "t".data) evEmptyText none none := by
  constructor
  · decide
  · decide

/-- C3 (amended): the prior-image lookup is gated on the prepared prompt
(the sanitized text after `enforceImageOnly`) being non-empty, which always
holds since enforcement appends a fixed non-empty instruction — so whenever
the image phase is reached the lookup is attempted, even if the sanitized
incoming text is empty; and when a prior image is found, it is prepended to
the current candidates and the batch runs on the url-de-duplicated list. -/
theorem C3_amended_prior_lookup (cx : Ctx) (channel root_ts : Str)
    (botUserId : Option Str) (text : Str) (targets : List Img) :
    (∃ rest, imagePhase cx channel root_ts botUserId
        (enforceImageOnly (sanitizeSlackText text botUserId)) targets =
      Action.lookupPrev (listPreviousBotImage (cx.repliesAll channel root_ts)
          root_ts botUserId cx.defNamePng).isSome :: rest) ∧
    (∀ p, listPreviousBotImage (cx.repliesAll channel root_ts) root_ts botUserId
          cx.defNamePng = some p →
      imagePhase cx channel root_ts botUserId
          (enforceImageOnly (sanitizeSlackText text botUserId)) targets =
        Action.lookupPrev true :: runBatchPart cx (dedupByUrl (p :: targets))) := by
  constructor
  · unfold imagePhase
    rw [if_pos (enforceImageOnly_trim_ne_nil (sanitizeSlackText text botUserId))]
    cases hp : listPreviousBotImage (cx.repliesAll channel root_ts) root_ts
        botUserId cx.defNamePng with
    | some p => exact ⟨_, rfl⟩
    | none => exact ⟨_, rfl⟩
  · intro p hp
    unfold imagePhase
    rw [if_pos (enforceImageOnly_trim_ne_nil (sanitizeSlackText text botUserId))]
    simp only [hp]

/-- Bot-authored reply with one image attachment, for the C3 witness. -/
def filePrev : SlackFile :=
  ⟨some "image/png".data, some "urlA".data, none, some "a.png".data⟩

/-- Bot-authored message carrying `filePrev`. -/
def msgPrev : SlackMsg := ⟨some "100".data, none, some "B1".data, none, some [filePrev]⟩

/-- Collaborators whose thread scan finds `msgPrev`. -/
def cxPrev : Ctx :=
  ⟨fun _ => false, fun _ _ => none, fun _ _ => [msgPrev], fun _ => .ok (), [],
    "prev.png".data⟩

/-- The image candidate found by the C3 witness lookup. -/
def imgPrev : Img := ⟨"urlA".data, "a.png".data, "image/png".data⟩

theorem C3_amended_prior_lookup_witness :
    imagePhase cxPrev "C".data "200".data none
        (enforceImageOnly (sanitizeSlackText "".data none)) [] =
      Action.lookupPrev true :: runBatchPart cxPrev (dedupByUrl [imgPrev]) :=
  (C3_amended_prior_lookup cxPrev "C".data "200".data none "".data []).2
    imgPrev (by decide)

end PriorLookupClaim
